import Mathlib

/-!
Verification of the core pipeline of `mastodon_digest` (`run.py`):
the timeline collector `fetch_posts_and_boosts`, the percentile-based
digest selection inside `run`, and the configuration checks of the
`__main__` block.

The remote Mastodon client and `scipy.stats.percentileofscore` are
external collaborators: the client is embedded as a list of timeline
pages together with a server-side filter predicate, and
`percentileofscore` is embedded following scipy's default behaviour
(kind "rank").
-/

namespace MastodonDigest

/-- Modelled from the spec: the Post Record of `models.py` (`ScoredPost`),
which is absent from the sources.  It is a normalized view of the remote
post dictionary: identity URL (the dedup key), the viewer-interaction
flags `reblogged`/`favourited`/`bookmarked`, and the author account
identifier `acct` (`info["account"]["acct"]` in `run.py`). -/
structure PostData where
  url : String
  reblogged : Bool
  favourited : Bool
  bookmarked : Bool
  acct : String
  deriving DecidableEq, Repr

/-- In `run.py` a `ScoredPost` simply wraps the (possibly unwrapped) post
dictionary; for the collector and selector it carries exactly the fields
of `PostData`. -/
abbrev ScoredPost := PostData

/-- A raw timeline entry: its own post data plus the optional `reblog`
field.  When `reblog` is present the entry is a boost and `run.py`
replaces the post by `post["reblog"]`. -/
structure Entry where
  self : PostData
  reblog : Option PostData
  deriving DecidableEq, Repr

/-- The test `post["reblog"] is not None` in `run.py`. -/
def Entry.isBoost (e : Entry) : Bool := e.reblog.isSome

/-- The post the collector actually works on: the boosted post when the
entry is a boost, otherwise the entry itself (`run.py` lines 42-47). -/
def Entry.underlying (e : Entry) : PostData := e.reblog.getD e.self

/-- The constant `TIMELINE_LIMIT = 1000` of `fetch_posts_and_boosts`. -/
def TIMELINE_LIMIT : Nat := 1000

/-- The mutable state of one `fetch_posts_and_boosts` call: the two
accumulator lists, the dedup set `seen_post_urls` and the counter
`total_posts_seen`. -/
structure CollectState where
  posts : List ScoredPost
  boosts : List ScoredPost
  seen : List String
  total : Nat
  deriving Repr

/-- The initial collector state. -/
def initState : CollectState := ⟨[], [], [], 0⟩

/-- The local filter of `run.py` lines 52-57: keep the post only when the
viewer has not reblogged, favourited or bookmarked it and is not its
author. -/
def localKeep (viewer : String) (p : PostData) : Bool :=
  !p.reblogged && !p.favourited && !p.bookmarked && p.acct != viewer

/-- The body of the `for post in filtered_response` loop of
`fetch_posts_and_boosts` (`run.py` lines 39-63): bump
`total_posts_seen`, unwrap a boost, and when the identity URL is new and
the local filter passes, append to the matching list and record the URL. -/
def processEntry (viewer : String) (st : CollectState) (e : Entry) : CollectState :=
  let st := { st with total := st.total + 1 }
  let sp := e.underlying
  if st.seen.contains sp.url then st
  else if localKeep viewer sp then
    if e.isBoost then
      { st with boosts := st.boosts ++ [sp], seen := st.seen ++ [sp.url] }
    else
      { st with posts := st.posts ++ [sp], seen := st.seen ++ [sp.url] }
  else st

/-- Processing one server-side-filtered page of entries. -/
def processPage (viewer : String) (st : CollectState) (page : List Entry) : CollectState :=
  page.foldl (processEntry viewer) st

/-- The `while response and total_posts_seen < TIMELINE_LIMIT` loop of
`fetch_posts_and_boosts`: the remote client is embedded as the list
`pages` of raw pages (successive `timeline`/`fetch_previous` results,
an exhausted timeline giving no further pages) and the server-side
`filters_apply` as the predicate `f`. -/
def fetchLoop (f : Entry → Bool) (viewer : String) :
    CollectState → List (List Entry) → CollectState
  | st, [] => st
  | st, page :: rest =>
    if page ≠ [] ∧ st.total < TIMELINE_LIMIT then
      fetchLoop f viewer (processPage viewer st (page.filter f)) rest
    else st

/-- The function `fetch_posts_and_boosts` (`run.py` lines 16-69): returns the pair
`(posts, boosts)`. -/
def fetchPostsAndBoosts (f : Entry → Bool) (viewer : String)
    (pages : List (List Entry)) : List ScoredPost × List ScoredPost :=
  let st := fetchLoop f viewer initState pages
  (st.posts, st.boosts)

/-- The number of raw, pre-filter timeline entries the loop examines:
every entry of every page that is handed to `filters_apply`.  This
instruments the very same loop as `fetchLoop`. -/
def rawExamined (f : Entry → Bool) (viewer : String) :
    CollectState → List (List Entry) → Nat
  | _, [] => 0
  | st, page :: rest =>
    if page ≠ [] ∧ st.total < TIMELINE_LIMIT then
      page.length + rawExamined f viewer (processPage viewer st (page.filter f)) rest
    else 0

/-- The largest size of a server-side-filtered page. -/
def maxFilteredLen (f : Entry → Bool) (pages : List (List Entry)) : Nat :=
  pages.foldr (fun pg m => max (pg.filter f).length m) 0

/-- A scoring strategy, as `run` receives it: a pure function from a post
to a score.  Engagement counts are non-negative so scores live in `ℚ`. -/
abbrev Scorer := ScoredPost → ℚ

/-- Modelled from the spec: `ScoredPost.get_score` of `models.py` (absent
from the sources) applies the scoring strategy to the post; strategies
are pure and side-effect-free, so identical input yields identical
output. -/
def get_score (scorer : Scorer) (p : ScoredPost) : ℚ := scorer p

/-- External collaborator `scipy.stats.percentileofscore` with its
default kind "rank": with `left` the number of sample values strictly
below the score and `right` the number of values not above it, the
result is `(left + right + (1 if right > left else 0)) * 50 / n`. -/
def percentileofscore (sample : List ℚ) (s : ℚ) : ℚ :=
  let left := (sample.filter (fun x => x < s)).length
  let right := (sample.filter (fun x => x ≤ s)).length
  ((left : ℚ) + right + (if left < right then 1 else 0)) * 50 / sample.length

/-- The selection comprehension of `run` (`run.py` lines 89-100): score
every item of the list once, then keep the items whose percentile rank
within that sample strictly exceeds the threshold. -/
def thresholdFilter (scorer : Scorer) (threshold : ℚ)
    (items : List ScoredPost) : List ScoredPost :=
  let all_scores := items.map (get_score scorer)
  items.filter (fun p => threshold < percentileofscore all_scores (get_score scorer p))

/-- The two selections `run` performs, on the posts list and the boosts
list, each against its own category-local score sample. -/
def runSelection (scorer : Scorer) (threshold : ℚ)
    (posts boosts : List ScoredPost) : List ScoredPost × List ScoredPost :=
  (thresholdFilter scorer threshold posts, thresholdFilter scorer threshold boosts)

/-- Modelled from the spec: the keys of the scorer registry returned by
`get_scorers` (`scorers.py`, absent from the sources); the help text of
`run.py` names the Simple/Extended × plain/Weighted family with default
`SimpleWeighted`. -/
def scorerNames : List String :=
  ["Simple", "SimpleWeighted", "Extended", "ExtendedWeighted"]

/-- Modelled from the spec: the threshold registry returned by
`get_thresholds` (`thresholds.py`, absent from the sources):
lax = 90th, normal = 95th, strict = 98th percentile. -/
def thresholdRegistry : List (String × ℚ) :=
  [("lax", 90), ("normal", 95), ("strict", 98)]

/-- The configuration surface of the `__main__` block: the two named
choices given on the command line and the three environment variables
(`os.getenv` returning `none` when a variable is unset). -/
structure Config where
  scorerArg : String
  thresholdArg : String
  token : Option String
  baseUrl : Option String
  username : Option String

/-- The arguments with which `run` would be invoked; producing this
value is the only way the `__main__` block reaches `run`, and all
network activity (constructing the `Mastodon` client and fetching)
happens inside `run`. -/
structure RunArgs where
  scorerName : String
  threshold : ℚ
  token : String
  baseUrl : String
  username : String

/-- The test `if not mastodon_token` in `run.py`: an unset variable (`None`) and
an empty string are both falsy. -/
def missingEnv : Option String → Bool
  | none => true
  | some s => s == ""

/-- The `__main__` block of `run.py` (lines 163-223) up to the call of
`run`: argparse validates the `-s` and `-t` names against the fixed
registries (`choices=...`) and exits on an unknown name, then each of
the three environment variables is checked and `sys.exit` is called
with a message when one is missing; only after all checks pass is `run`
invoked. -/
def mainCheck (c : Config) : Except String RunArgs :=
  if c.scorerArg ∉ scorerNames then
    .error "argument -s: invalid choice"
  else if c.thresholdArg ∉ thresholdRegistry.map Prod.fst then
    .error "argument -t: invalid choice"
  else
    match c.token with
    | none => .error "Missing environment variable: MASTODON_TOKEN"
    | some tok =>
      if tok == "" then .error "Missing environment variable: MASTODON_TOKEN"
      else
        match c.baseUrl with
        | none => .error "Missing environment variable: MASTODON_BASE_URL"
        | some base =>
          if base == "" then .error "Missing environment variable: MASTODON_BASE_URL"
          else
            match c.username with
            | none => .error "Missing environment variable: MASTODON_USERNAME"
            | some user =>
              if user == "" then .error "Missing environment variable: MASTODON_USERNAME"
              else
                .ok ⟨c.scorerArg,
                     ((thresholdRegistry.find? (fun kv => kv.fst == c.thresholdArg)).getD
                       ("", 0)).snd,
                     tok, base, user⟩

/-- Whether the `__main__` block terminates with a fatal error instead of
reaching `run` (and hence before any network activity, which happens only
inside `run`). -/
def isFatal : Except String RunArgs → Bool
  | .error _ => true
  | .ok _ => false

/-! ### Collector lemmas -/

/-- The identity URLs of everything collected so far, posts and boosts
jointly. -/
def urlsOf (st : CollectState) : List String :=
  (st.posts ++ st.boosts).map PostData.url

/-- The deduplication invariant of the collector loop: the collected
URLs are pairwise distinct and every collected URL has been recorded in
`seen_post_urls`. -/
def DedupInv (st : CollectState) : Prop :=
  (urlsOf st).Nodup ∧ ∀ u ∈ urlsOf st, u ∈ st.seen

/-- The local-exclusion invariant: everything collected so far passes
the local filter for the viewer. -/
def KeptInv (viewer : String) (st : CollectState) : Prop :=
  ∀ p ∈ st.posts ++ st.boosts, localKeep viewer p = true

/-- The posts and boosts jointly returned by one collection run. -/
def collectedUnion (f : Entry → Bool) (viewer : String)
    (pages : List (List Entry)) : List ScoredPost :=
  (fetchPostsAndBoosts f viewer pages).1 ++ (fetchPostsAndBoosts f viewer pages).2

/-! ### Concrete data for witnesses and counterexamples -/

/-- A post by another user, untouched by the viewer. -/
def pA : PostData := ⟨"https://example.social/@alice/1", false, false, false, "alice"⟩

/-- A second post, distinguishable from `pA` by its `reblogged` flag. -/
def pB : PostData := ⟨"https://example.social/@bob/2", true, false, false, "bob"⟩

/-- Entry carrying `pA` directly on the timeline. -/
def eA : Entry := ⟨pA, none⟩

/-- Entry carrying `pA` wrapped in a boost by carol. -/
def eAboost1 : Entry :=
  ⟨⟨"https://example.social/@carol/9", false, false, false, "carol"⟩, some pA⟩

/-- Entry carrying `pA` wrapped in a boost by dave. -/
def eAboost2 : Entry :=
  ⟨⟨"https://example.social/@dave/7", false, false, false, "dave"⟩, some pA⟩

/-- A scorer that gives `pA` score 1 and `pB` score 2. -/
def wScorer : Scorer := fun p => if p.reblogged then 2 else 1

/-- A second scorer that agrees with `wScorer` on `pA` but not on `pB`. -/
def wScorer2 : Scorer := fun p => if p.reblogged then 7 else 1

theorem processEntry_total (viewer : String) (st : CollectState) (e : Entry) :
    (processEntry viewer st e).total = st.total + 1 := by
  simp only [processEntry]
  split
  · rfl
  · split
    · split <;> rfl
    · rfl

theorem urls_snoc_inv (L : List PostData) (sp : PostData) (seen : List String)
    (hnd : (L.map PostData.url).Nodup)
    (hsub : ∀ u ∈ L.map PostData.url, u ∈ seen)
    (hnew : sp.url ∉ seen) :
    ((L ++ [sp]).map PostData.url).Nodup ∧
      ∀ u ∈ (L ++ [sp]).map PostData.url, u ∈ seen ++ [sp.url] := by
  constructor
  · rw [List.map_append, List.nodup_append]
    refine ⟨hnd, by simp, ?_⟩
    intro u hu h1
    simp only [List.map_cons, List.map_nil, List.mem_singleton] at h1
    exact hnew (h1 ▸ hsub u hu)
  · intro u hu
    rw [List.map_append, List.mem_append] at hu
    rcases hu with hu | hu
    · exact List.mem_append_left _ (hsub u hu)
    · simp only [List.map_cons, List.map_nil, List.mem_singleton] at hu
      simp [hu]

theorem perm_middle_snoc (P B : List PostData) (sp : PostData) :
    ((P ++ [sp]) ++ B).Perm ((P ++ B) ++ [sp]) := by
  rw [List.append_assoc, List.append_assoc]
  exact List.Perm.append_left _ List.perm_append_comm

theorem processEntry_dedup (viewer : String) (st : CollectState) (e : Entry)
    (h : DedupInv st) : DedupInv (processEntry viewer st e) := by
  obtain ⟨hnd, hsub⟩ := h
  simp only [DedupInv, urlsOf, processEntry] at *
  split
  · exact ⟨hnd, hsub⟩
  · next hc =>
    have hmem : e.underlying.url ∉ st.seen := by simpa using hc
    split
    · have h1 := urls_snoc_inv (st.posts ++ st.boosts) e.underlying st.seen hnd hsub hmem
      split
      · -- boost branch: the post is appended to the boosts list
        constructor
        · simpa only [List.append_assoc] using h1.1
        · simpa only [List.append_assoc] using h1.2
      · -- original branch: the post is appended to the posts list
        have hpermu :=
          (perm_middle_snoc st.posts st.boosts e.underlying).map PostData.url
        constructor
        · exact hpermu.nodup_iff.mpr h1.1
        · intro u hu
          exact h1.2 u (hpermu.mem_iff.mp hu)
    · exact ⟨hnd, hsub⟩

theorem processEntry_kept (viewer : String) (st : CollectState) (e : Entry)
    (h : KeptInv viewer st) : KeptInv viewer (processEntry viewer st e) := by
  simp only [KeptInv, processEntry] at *
  split
  · exact h
  · split
    · next hk =>
      split
      all_goals
        intro p hp
        simp only [List.append_assoc, List.mem_append, List.mem_singleton] at hp ⊢
        rcases hp with hp | hp | hp <;>
          first
            | exact hp ▸ hk
            | exact hp.symm ▸ hk
            | exact h p (by simp [hp])
    · exact h

theorem processPage_preserve (viewer : String) {P : CollectState → Prop}
    (h : ∀ st e, P st → P (processEntry viewer st e)) :
    ∀ (page : List Entry) (st : CollectState), P st → P (processPage viewer st page) := by
  intro page
  induction page with
  | nil => intro st hst; exact hst
  | cons e es ih =>
    intro st hst
    exact ih (processEntry viewer st e) (h st e hst)

theorem fetchLoop_preserve (f : Entry → Bool) (viewer : String) {P : CollectState → Prop}
    (h : ∀ st e, P st → P (processEntry viewer st e)) :
    ∀ (pages : List (List Entry)) (st : CollectState), P st → P (fetchLoop f viewer st pages) := by
  intro pages
  induction pages with
  | nil => intro st hst; exact hst
  | cons page rest ih =>
    intro st hst
    rw [fetchLoop]
    split
    · exact ih _ (processPage_preserve viewer h (page.filter f) st hst)
    · exact hst

theorem processPage_total (viewer : String) :
    ∀ (page : List Entry) (st : CollectState),
      (processPage viewer st page).total = st.total + page.length := by
  intro page
  induction page with
  | nil => intro st; rfl
  | cons e es ih =>
    intro st
    show (processPage viewer (processEntry viewer st e) es).total = _
    rw [ih, processEntry_total]
    simp only [List.length_cons]
    omega

theorem fetchLoop_total_le (f : Entry → Bool) (viewer : String) :
    ∀ (pages : List (List Entry)) (st : CollectState),
      (fetchLoop f viewer st pages).total ≤
        max st.total (TIMELINE_LIMIT - 1 + maxFilteredLen f pages) := by
  intro pages
  induction pages with
  | nil => intro st; exact le_max_left _ _
  | cons page rest ih =>
    intro st
    rw [fetchLoop]
    split
    · next hcond =>
      refine le_trans (ih (processPage viewer st (page.filter f))) ?_
      have htot : (processPage viewer st (page.filter f)).total =
          st.total + (page.filter f).length := processPage_total viewer _ st
      have hlt : st.total < TIMELINE_LIMIT := hcond.2
      have hle1 : (page.filter f).length ≤ maxFilteredLen f (page :: rest) :=
        le_max_left _ _
      have hle2 : maxFilteredLen f rest ≤ maxFilteredLen f (page :: rest) :=
        le_max_right _ _
      have hT : 0 < TIMELINE_LIMIT := by norm_num [TIMELINE_LIMIT]
      rw [htot]
      omega
    · exact le_max_left _ _

theorem rawExamined_nil (f : Entry → Bool) (viewer : String) (st : CollectState) :
    rawExamined f viewer st [] = 0 := rfl

/-! ### Selection lemmas -/

theorem mem_thresholdFilter (scorer : Scorer) (t : ℚ) (items : List ScoredPost)
    (p : ScoredPost) :
    p ∈ thresholdFilter scorer t items ↔
      p ∈ items ∧
        t < percentileofscore (items.map (get_score scorer)) (get_score scorer p) := by
  simp [thresholdFilter, List.mem_filter]

theorem thresholdFilter_congr (s1 s2 : Scorer) (t : ℚ) (items : List ScoredPost)
    (h : ∀ p ∈ items, s1 p = s2 p) :
    thresholdFilter s1 t items = thresholdFilter s2 t items := by
  unfold thresholdFilter
  have hmap : items.map (get_score s1) = items.map (get_score s2) :=
    List.map_congr_left (fun a ha => h a ha)
  rw [hmap]
  exact List.filter_congr (fun a ha => by simp only [get_score, h a ha])

theorem percentileofscore_singleton (s : ℚ) : percentileofscore [s] s = 100 := by
  simp [percentileofscore, List.filter, lt_irrefl]
  norm_num

/-! ### The claims -/

/-- C1, counterexample: a single timeline page of 1001 raw entries, all
passing the server-side filter, refutes the claim that the collector
examines at most `max_items = 1000` raw entries regardless of page
boundaries: the cap is only checked between pages, so the whole page of
1001 entries is examined. -/
theorem C1_counterexample :
    TIMELINE_LIMIT <
      rawExamined (fun _ => true) "viewer" initState [List.replicate 1001 eA] := by
  rw [rawExamined]
  rw [if_pos ⟨List.ne_nil_of_length_pos (by rw [List.length_replicate]; norm_num),
    by norm_num [initState, TIMELINE_LIMIT]⟩]
  rw [rawExamined_nil, List.length_replicate]
  norm_num [TIMELINE_LIMIT]

/-- C1, amended: `fetch_posts_and_boosts` checks the `max_items` cap only
between pages, counting entries after server-side filtering: every page
is processed only while fewer than `TIMELINE_LIMIT` filtered entries have
been examined, so the number of filtered entries examined never exceeds
`TIMELINE_LIMIT - 1` plus the size of the largest filtered page. -/
theorem C1_cap_at_page_boundaries (f : Entry → Bool) (viewer : String)
    (pages : List (List Entry)) :
    (fetchLoop f viewer initState pages).total ≤
      TIMELINE_LIMIT - 1 + maxFilteredLen f pages := by
  have h := fetchLoop_total_le f viewer pages initState
  simpa [initState] using h

/-- C2: across one collection run the posts and boosts lists jointly
contain no duplicate identity URLs — every URL occurs at most once in the
union — and in the synthetic timeline where the same underlying post
arrives once directly and once via each of two distinct boosters, exactly
one record with that URL is collected. -/
theorem C2_no_duplicate_urls :
    (∀ (f : Entry → Bool) (viewer : String) (pages : List (List Entry)),
        ((collectedUnion f viewer pages).map PostData.url).Nodup ∧
          ∀ u : String,
            ((collectedUnion f viewer pages).filter
              (fun p => p.url == u)).length ≤ 1) ∧
      collectedUnion (fun _ => true) "me" [[eA, eAboost1, eAboost2]] = [pA] := by
  constructor
  · intro f viewer pages
    have hinv : DedupInv (fetchLoop f viewer initState pages) :=
      fetchLoop_preserve f viewer (processEntry_dedup viewer) pages initState
        ⟨by simp [urlsOf, initState], by simp [urlsOf, initState]⟩
    have hnd : ((collectedUnion f viewer pages).map PostData.url).Nodup := by
      simpa [collectedUnion, fetchPostsAndBoosts, urlsOf] using hinv.1
    refine ⟨hnd, fun u => ?_⟩
    calc ((collectedUnion f viewer pages).filter (fun p => p.url == u)).length
        = (collectedUnion f viewer pages).countP (fun p => p.url == u) :=
          (List.countP_eq_length_filter _ _).symm
      _ = ((collectedUnion f viewer pages).map PostData.url).countP (fun x => x == u) := by
          rw [List.countP_map]; rfl
      _ = ((collectedUnion f viewer pages).map PostData.url).count u := rfl
      _ ≤ 1 := List.nodup_iff_count_le_one.mp hnd u
  · simp [collectedUnion, fetchPostsAndBoosts, fetchLoop, processPage, processEntry,
      initState, localKeep, Entry.underlying, Entry.isBoost, TIMELINE_LIMIT,
      eA, eAboost1, eAboost2, pA, List.filter]

/-- C3: every post in either returned list has all three viewer
interaction flags false and an author different from the viewer; the
collector stores the unwrapped underlying post, so for boosts the
exclusion is evaluated on the underlying post. -/
theorem C3_viewer_exclusion (f : Entry → Bool) (viewer : String)
    (pages : List (List Entry)) (p : ScoredPost)
    (hp : p ∈ collectedUnion f viewer pages) :
    p.reblogged = false ∧ p.favourited = false ∧ p.bookmarked = false ∧
      p.acct ≠ viewer := by
  have hinv : KeptInv viewer (fetchLoop f viewer initState pages) :=
    fetchLoop_preserve f viewer (processEntry_kept viewer) pages initState
      (by simp [KeptInv, initState])
  have hk : localKeep viewer p = true := by
    refine hinv p ?_
    simpa [collectedUnion, fetchPostsAndBoosts] using hp
  simpa [localKeep, and_assoc] using hk

/-- C3, witness: on a one-entry timeline the collected post is pA, which
the theorem shows to be untouched by and not authored by viewer "me". -/
theorem C3_viewer_exclusion_witness :
    pA.reblogged = false ∧ pA.favourited = false ∧ pA.bookmarked = false ∧
      pA.acct ≠ "me" :=
  C3_viewer_exclusion (fun _ => true) "me" [[eA]] pA
    (by simp [collectedUnion, fetchPostsAndBoosts, fetchLoop, processPage, processEntry,
      initState, localKeep, Entry.underlying, Entry.isBoost, TIMELINE_LIMIT, eA, pA,
      List.filter])

/-- C4: the selector retains exactly the items of a list whose percentile
rank within that list's own score sample strictly exceeds the threshold,
and an item whose rank equals the threshold exactly is excluded. -/
theorem C4_strict_threshold (scorer : Scorer) (t : ℚ) (items : List ScoredPost)
    (p : ScoredPost) :
    (p ∈ thresholdFilter scorer t items ↔
      p ∈ items ∧
        t < percentileofscore (items.map (get_score scorer)) (get_score scorer p)) ∧
    (percentileofscore (items.map (get_score scorer)) (get_score scorer p) = t →
      p ∉ thresholdFilter scorer t items) := by
  refine ⟨mem_thresholdFilter scorer t items p, fun heq hmem => ?_⟩
  have h := (mem_thresholdFilter scorer t items p).mp hmem
  rw [heq] at h
  exact lt_irrefl t h.2

/-- C4, witness: with scores [1, 2] the first item's percentile rank is
exactly 50, so at threshold 50 it is excluded. -/
theorem C4_strict_threshold_witness :
    percentileofscore ([pA, pB].map (get_score wScorer)) (get_score wScorer pA) = 50 ∧
      pA ∉ thresholdFilter wScorer 50 [pA, pB] := by
  have h50 :
      percentileofscore ([pA, pB].map (get_score wScorer)) (get_score wScorer pA) = 50 := by
    norm_num [get_score, percentileofscore, List.filter, pA, pB, wScorer]
  exact ⟨h50, (C4_strict_threshold wScorer 50 [pA, pB] pA).2 h50⟩

/-- C5: in a single-item list that item's percentile rank is 100, so it
is retained under every threshold strictly below 100, in particular under
the registered thresholds lax = 90, normal = 95 and strict = 98. -/
theorem C5_single_item (scorer : Scorer) (p : ScoredPost) :
    percentileofscore ([p].map (get_score scorer)) (get_score scorer p) = 100 ∧
    (∀ t : ℚ, t < 100 → thresholdFilter scorer t [p] = [p]) ∧
    (∀ nv ∈ thresholdRegistry, thresholdFilter scorer nv.2 [p] = [p]) := by
  have h100 : percentileofscore ([p].map (get_score scorer)) (get_score scorer p) = 100 := by
    simpa using percentileofscore_singleton (get_score scorer p)
  have hlt : ∀ t : ℚ, t < 100 → thresholdFilter scorer t [p] = [p] := by
    intro t ht
    have h1 : percentileofscore [get_score scorer p] (get_score scorer p) = 100 :=
      percentileofscore_singleton _
    simp [thresholdFilter, List.filter_singleton, h1, ht]
  refine ⟨h100, hlt, fun nv hnv => ?_⟩
  fin_cases hnv <;> exact hlt _ (by norm_num)

/-- C5, witness: the single post pA is retained at the normal threshold
95 because 95 < 100. -/
theorem C5_single_item_witness :
    (95 : ℚ) < 100 ∧ thresholdFilter wScorer 95 [pA] = [pA] :=
  ⟨by norm_num, (C5_single_item wScorer pA).2.1 95 (by norm_num)⟩

/-- C6: for a fixed list and scorer, raising the threshold never adds
retained items: everything retained at the higher threshold t2 is also
retained at any lower threshold t1. -/
theorem C6_threshold_monotone (scorer : Scorer) (items : List ScoredPost)
    (t1 t2 : ℚ) (h12 : t1 ≤ t2) (p : ScoredPost)
    (hp : p ∈ thresholdFilter scorer t2 items) :
    p ∈ thresholdFilter scorer t1 items := by
  rw [mem_thresholdFilter] at hp ⊢
  exact ⟨hp.1, lt_of_le_of_lt h12 hp.2⟩

/-- C6, witness: pB is retained at threshold 90 (its rank is 100), and
the theorem transports this retention down to threshold 50. -/
theorem C6_threshold_monotone_witness :
    pB ∈ thresholdFilter wScorer 50 [pA, pB] :=
  C6_threshold_monotone wScorer [pA, pB] 50 90 (by norm_num) pB
    (by norm_num [thresholdFilter, get_score, percentileofscore, List.filter,
      pA, pB, wScorer])

/-- C7: selection is category-local: the retained posts depend only on
the posts list, the scorer's values on it and the threshold — the boosts
list and the scores of boosts are irrelevant — and symmetrically for the
retained boosts. -/
theorem C7_category_isolation (t : ℚ) :
    (∀ (posts b1 b2 : List ScoredPost) (s1 s2 : Scorer),
        (∀ p ∈ posts, s1 p = s2 p) →
        (runSelection s1 t posts b1).1 = (runSelection s2 t posts b2).1) ∧
    (∀ (boosts p1 p2 : List ScoredPost) (s1 s2 : Scorer),
        (∀ p ∈ boosts, s1 p = s2 p) →
        (runSelection s1 t p1 boosts).2 = (runSelection s2 t p2 boosts).2) := by
  constructor <;>
    exact fun L _ _ s1 s2 h => thresholdFilter_congr s1 s2 t L h

/-- C7, witness: two runs sharing the posts list [pA] and a scorer pair
agreeing on pA, but with different boosts lists and different boost
scores, retain the same posts. -/
theorem C7_category_isolation_witness :
    (runSelection wScorer 50 [pA] []).1 = (runSelection wScorer2 50 [pA] [pB]).1 :=
  (C7_category_isolation 50).1 [pA] [] [pB] wScorer wScorer2
    (by intro p hp
        rw [List.mem_singleton] at hp
        subst hp
        rfl)

/-- C8: an empty timeline (no pages, or a first page with no entries)
makes `fetch_posts_and_boosts` return two empty lists, and selection of
an empty list is empty, the percentile function never being applied
because the comprehension/filter has nothing to traverse. -/
theorem C8_empty_cases :
    (∀ (f : Entry → Bool) (viewer : String),
        fetchPostsAndBoosts f viewer [] = ([], [])) ∧
    (∀ (f : Entry → Bool) (viewer : String) (rest : List (List Entry)),
        fetchPostsAndBoosts f viewer ([] :: rest) = ([], [])) ∧
    (∀ (scorer : Scorer) (t : ℚ), thresholdFilter scorer t [] = []) ∧
    (∀ (scorer : Scorer) (t : ℚ) (boosts : List ScoredPost),
        (runSelection scorer t [] boosts).1 = []) := by
  refine ⟨fun f v => rfl, fun f v rest => ?_, fun s t => rfl, fun s t b => rfl⟩
  simp [fetchPostsAndBoosts, fetchLoop, initState]

/-- C9: a missing access token, base URL or username, as well as a scorer
or threshold name outside the fixed registries, makes the `__main__`
block terminate with a fatal error; `run` — the only place where network
activity happens — is then never invoked. -/
theorem C9_config_validation (c : Config) :
    (missingEnv c.token = true → isFatal (mainCheck c) = true) ∧
    (missingEnv c.baseUrl = true → isFatal (mainCheck c) = true) ∧
    (missingEnv c.username = true → isFatal (mainCheck c) = true) ∧
    (c.scorerArg ∉ scorerNames → isFatal (mainCheck c) = true) ∧
    (c.thresholdArg ∉ thresholdRegistry.map Prod.fst → isFatal (mainCheck c) = true) := by
  obtain ⟨sa, ta, tok, burl, user⟩ := c
  refine ⟨?_, ?_, ?_, ?_, ?_⟩ <;> intro h <;> unfold mainCheck <;>
    (repeat' split) <;> first | rfl | simp_all [missingEnv, isFatal]

/-- C9, witness: with a valid scorer and threshold name but no access
token the main block reports a fatal configuration error. -/
theorem C9_config_validation_witness :
    missingEnv (none : Option String) = true ∧
      isFatal (mainCheck ⟨"SimpleWeighted", "normal", none, some "https://m.s", some "me"⟩)
        = true :=
  ⟨rfl,
    (C9_config_validation
      ⟨"SimpleWeighted", "normal", none, some "https://m.s", some "me"⟩).1 rfl⟩

/-- C10: selection preserves order: each retained list is a subsequence
of its input list, for posts and boosts alike. -/
theorem C10_selection_subsequence (scorer : Scorer) (t : ℚ)
    (posts boosts : List ScoredPost) :
    List.Sublist ((runSelection scorer t posts boosts).1) posts ∧
    List.Sublist ((runSelection scorer t posts boosts).2) boosts :=
  ⟨List.filter_sublist _, List.filter_sublist _⟩

end MastodonDigest
